import Mathlib

/-!
Verification of the play-log, auto-favorite and listening-time core of the
music-player repository (src/music.py; the logic lives in the MusicState
class: methods _recordPlay, _onTrackComplete, formatTotalTime,
removeFavorite and resetAll).

Timestamps are integers with second resolution; the 24-hour retention
window is 86400 seconds, and the source prunes with DateTime.isAfter,
which is a strict comparison. The per-track play log is modelled as a
total function from track identifiers to timestamp lists, a key absent
from the source map being the empty list (the source reads it with
playLog[id]?.length ?? 0 and writes it with putIfAbsent). Favorites are a
Dart List of identifiers: promotion appends at the end after a contains
check, and List.remove drops the first occurrence. The source record
method takes no duration and performs no input validation; listening time
is accumulated only by the track-completion handler, which adds the known
duration when positive and a 180-second fallback otherwise. The current
time is an explicit parameter here, standing for the DateTime.now() call
in the source.
-/

structure MusicState where
  playLog : String → List Int
  favorites : List String
  totalSeconds : Int

/-- The state at first launch: empty log, no favorites, zero total. -/
def initialState : MusicState :=
  { playLog := fun _ => [], favorites := [], totalSeconds := 0 }

/-- The retention window of the source, Duration(hours: 24), in seconds. -/
def windowSeconds : Int := 86400

/-- MusicState._recordPlay (src/music.py lines 215-227): append the event
at now, prune events not strictly after now minus 24 hours, and add the
track to favorites when the pruned length reaches 4 and it is not yet a
favorite. The method takes no duration and validates nothing. -/
def recordPlay (s : MusicState) (songId : String) (now : Int) : MusicState :=
  let cutoff := now - windowSeconds
  let pruned := (s.playLog songId ++ [now]).filter (fun t => decide (cutoff < t))
  { s with
    playLog := fun id => if id = songId then pruned else s.playLog id
    favorites :=
      if 4 ≤ pruned.length ∧ songId ∉ s.favorites then s.favorites ++ [songId]
      else s.favorites }

/-- The recent play count the UI shows (src/music.py line 589):
the length of the stored, already pruned, sequence. -/
def getRecentPlayCount (s : MusicState) (songId : String) : Nat :=
  (s.playLog songId).length

/-- MusicState._onTrackComplete (src/music.py lines 229-235): add the
track duration to the total when it is positive, else a 180 fallback. -/
def onTrackComplete (s : MusicState) (durationSeconds : Int) : MusicState :=
  let sec := if 0 < durationSeconds then durationSeconds else 180
  { s with totalSeconds := s.totalSeconds + sec }

/-- MusicState.formatTotalTime (src/music.py lines 237-244): hours with
Dart truncating division, minutes and seconds with Dart modulo (which is
Euclidean, as Lean's Int.emod is). -/
def formatTotalTime (totalSeconds : Int) : String :=
  if 0 < Int.tdiv totalSeconds 3600 then
    toString (Int.tdiv totalSeconds 3600) ++ "h "
      ++ toString (Int.tdiv (totalSeconds % 3600) 60) ++ "m "
      ++ toString (totalSeconds % 60) ++ "s"
  else if 0 < Int.tdiv (totalSeconds % 3600) 60 then
    toString (Int.tdiv (totalSeconds % 3600) 60) ++ "m "
      ++ toString (totalSeconds % 60) ++ "s"
  else
    toString (totalSeconds % 60) ++ "s"

/-- MusicState.removeFavorite (src/music.py lines 246-250): Dart
List.remove, which drops the first occurrence and is a no-op when the
identifier is absent. The play log and the total are untouched. -/
def removeFavorite (s : MusicState) (songId : String) : MusicState :=
  { s with favorites := s.favorites.erase songId }

/-- MusicState.resetAll (src/music.py lines 252-258): clear the log and
the favorites, zero the total. -/
def resetAll (s : MusicState) : MusicState :=
  { s with playLog := fun _ => [], favorites := [], totalSeconds := 0 }

/-- A trace of record calls, each a track identifier with its time. -/
def runPlays (calls : List (String × Int)) : MusicState :=
  calls.foldl (fun s c => recordPlay s c.1 c.2) initialState

/-- A trace of track-completion events from a given state. -/
def runCompletes (s : MusicState) (ds : List Int) : MusicState :=
  ds.foldl onTrackComplete s

/-- The mutating operations of the class, for reachability statements. -/
inductive Op where
  | record (songId : String) (now : Int)
  | complete (durationSeconds : Int)
  | removeFav (songId : String)
  | reset

def applyOp (s : MusicState) : Op → MusicState
  | Op.record songId now => recordPlay s songId now
  | Op.complete d => onTrackComplete s d
  | Op.removeFav songId => removeFavorite s songId
  | Op.reset => resetAll s

/-- A state reached by a trace of operations from the initial state. -/
def run (ops : List Op) : MusicState :=
  ops.foldl applyOp initialState

/-! Helper lemmas about the record operation. -/

theorem recordPlay_playLog_self (s : MusicState) (songId : String) (now : Int) :
    (recordPlay s songId now).playLog songId
      = (s.playLog songId ++ [now]).filter (fun t => decide (now - windowSeconds < t)) := by
  simp [recordPlay]

theorem recordPlay_playLog_other (s : MusicState) (songId id : String) (now : Int)
    (h : id ≠ songId) : (recordPlay s songId now).playLog id = s.playLog id := by
  simp [recordPlay, h]

theorem recordPlay_favorites_eq (s : MusicState) (songId : String) (now : Int) :
    (recordPlay s songId now).favorites
      = if 4 ≤ ((s.playLog songId ++ [now]).filter
            (fun t => decide (now - windowSeconds < t))).length
          ∧ songId ∉ s.favorites
        then s.favorites ++ [songId] else s.favorites := rfl

theorem mem_favorites_recordPlay (s : MusicState) (songId fid : String) (now : Int)
    (h : fid ∈ s.favorites) : fid ∈ (recordPlay s songId now).favorites := by
  rw [recordPlay_favorites_eq]
  split
  · exact List.mem_append_left _ h
  · exact h

theorem recordPlay_mem_favorites_iff (s : MusicState) (songId : String) (now : Int) :
    songId ∈ (recordPlay s songId now).favorites
      ↔ songId ∈ s.favorites ∨ 4 ≤ ((recordPlay s songId now).playLog songId).length := by
  rw [recordPlay_favorites_eq, recordPlay_playLog_self]
  by_cases hmem : songId ∈ s.favorites
  · rw [if_neg fun hc => hc.2 hmem]
    simp [hmem]
  · by_cases hlen : 4 ≤ ((s.playLog songId ++ [now]).filter
        (fun t => decide (now - windowSeconds < t))).length
    · rw [if_pos ⟨hlen, hmem⟩]
      exact ⟨fun _ => Or.inr hlen, fun _ => List.mem_append_right _ (by simp)⟩
    · rw [if_neg fun hc => hlen hc.1]
      exact ⟨fun h => (hmem h).elim,
        fun h => h.elim (fun h => (hmem h).elim) (fun h => (hlen h).elim)⟩

theorem filter_now_singleton (now : Int) :
    [now].filter (fun t => decide (now - windowSeconds < t)) = [now] := by
  have hlt : now - windowSeconds < now := by
    show now - 86400 < now
    omega
  simp [hlt]

theorem recordPlay_playLog_getLast (s : MusicState) (songId : String) (now : Int) :
    ((recordPlay s songId now).playLog songId).getLast? = some now := by
  rw [recordPlay_playLog_self, List.filter_append, filter_now_singleton,
    List.getLast?_concat]

theorem recordPlay_playLog_length_pos (s : MusicState) (songId : String) (now : Int) :
    0 < ((recordPlay s songId now).playLog songId).length := by
  have h := recordPlay_playLog_getLast s songId now
  cases hl : (recordPlay s songId now).playLog songId with
  | nil => rw [hl] at h; simp at h
  | cons a l => simp [hl]

/-- The persistent invariant behind the promotion rule: a track not in the
favorites keeps at most 3 stored events, so the call that promotes it is
the one at which the in-window count reaches exactly 4. -/
def BelowThreshold (s : MusicState) : Prop :=
  ∀ id, id ∉ s.favorites → (s.playLog id).length ≤ 3

theorem belowThreshold_initial : BelowThreshold initialState := by
  intro id _
  simp [initialState]

theorem belowThreshold_recordPlay (s : MusicState) (songId : String) (now : Int)
    (h : BelowThreshold s) : BelowThreshold (recordPlay s songId now) := by
  intro id hid
  by_cases heq : id = songId
  · subst heq
    by_cases hlen : 4 ≤ ((recordPlay s id now).playLog id).length
    · exact absurd ((recordPlay_mem_favorites_iff s id now).mpr (Or.inr hlen)) hid
    · omega
  · rw [recordPlay_playLog_other s songId id now heq]
    refine h id fun hmem => hid ?_
    exact mem_favorites_recordPlay s songId id now hmem

theorem belowThreshold_runPlays (calls : List (String × Int)) :
    BelowThreshold (runPlays calls) := by
  suffices h : ∀ (cs : List (String × Int)) (s : MusicState), BelowThreshold s →
      BelowThreshold (cs.foldl (fun s c => recordPlay s c.1 c.2) s) from
    h calls initialState belowThreshold_initial
  intro cs
  induction cs with
  | nil => exact fun s hs => hs
  | cons c rest ih => exact fun s hs => ih _ (belowThreshold_recordPlay s c.1 c.2 hs)

theorem newly_promoted_length_eq_four (s : MusicState) (songId : String) (now : Int)
    (hb : BelowThreshold s) (h1 : songId ∉ s.favorites)
    (h2 : songId ∈ (recordPlay s songId now).favorites) :
    ((recordPlay s songId now).playLog songId).length = 4 := by
  have hge : 4 ≤ ((recordPlay s songId now).playLog songId).length := by
    rcases (recordPlay_mem_favorites_iff s songId now).mp h2 with h | h
    · exact absurd h h1
    · exact h
  have hfil : ((s.playLog songId ++ [now]).filter
      (fun t => decide (now - windowSeconds < t))).length
      ≤ (s.playLog songId ++ [now]).length :=
    List.length_filter_le _ _
  have hb' := hb songId h1
  rw [recordPlay_playLog_self]
  rw [recordPlay_playLog_self] at hge
  simp only [List.length_append, List.length_singleton] at hfil
  omega

theorem nodup_favorites_recordPlay (s : MusicState) (songId : String) (now : Int)
    (h : s.favorites.Nodup) : (recordPlay s songId now).favorites.Nodup := by
  rw [recordPlay_favorites_eq]
  split
  · next hc => simp [List.nodup_append, h, hc.2]
  · exact h

theorem nodup_favorites_applyOp (s : MusicState) (op : Op)
    (h : s.favorites.Nodup) : (applyOp s op).favorites.Nodup := by
  cases op with
  | record songId now => exact nodup_favorites_recordPlay s songId now h
  | complete d => exact h
  | removeFav songId => exact h.erase songId
  | reset => simp [applyOp, resetAll]

theorem nodup_favorites_run (ops : List Op) : (run ops).favorites.Nodup := by
  suffices h : ∀ (os : List Op) (s : MusicState), s.favorites.Nodup →
      (os.foldl applyOp s).favorites.Nodup from
    h ops initialState (by simp [initialState])
  intro os
  induction os with
  | nil => exact fun s hs => hs
  | cons op rest ih => exact fun s hs => ih _ (nodup_favorites_applyOp s op hs)

theorem runCompletes_totalSeconds (ds : List Int) (s : MusicState) :
    (runCompletes s ds).totalSeconds
      = s.totalSeconds + (ds.map (fun d => if 0 < d then d else 180)).sum := by
  induction ds generalizing s with
  | nil => simp [runCompletes]
  | cons d rest ih =>
    have hstep : runCompletes s (d :: rest) = runCompletes (onTrackComplete s d) rest := rfl
    rw [hstep, ih, List.map_cons, List.sum_cons]
    show s.totalSeconds + (if 0 < d then d else 180) + _ = _
    rw [Int.add_assoc]

/-! The claims. -/

/-- C1 (amended): a track identifier is added to the favorite set exactly
at the record call at which the number of events in the rolling window
(strictly after now minus 24 hours, the fresh event included) reaches 4:
membership after a call holds iff it held before or the retained count is
at least 4, and on any trace of record calls a newly promoted track has
retained count exactly 4, so promotion happens at the 4th in-window play
and never with fewer. Four plays at t0, t0+1h, t0+2h and t0+25h do not
promote at the fourth call: pruning leaves only 2 events in the window
(t0 is strictly older than the cutoff and t0+1h lies exactly on it), not
the 3 events the original claim asserts. -/
theorem recordPlay_promotes_at_fourth_recent_play :
    ∀ (s : MusicState) (songId : String) (now : Int),
      (songId ∈ (recordPlay s songId now).favorites
        ↔ songId ∈ s.favorites ∨ 4 ≤ ((recordPlay s songId now).playLog songId).length)
      ∧ (∀ (calls : List (String × Int)) (id : String) (t : Int),
          id ∉ (runPlays calls).favorites →
          id ∈ (recordPlay (runPlays calls) id t).favorites →
          ((recordPlay (runPlays calls) id t).playLog id).length = 4)
      ∧ ("x" ∉ (runPlays [("x", 0), ("x", 3600), ("x", 7200), ("x", 90000)]).favorites
          ∧ ((runPlays [("x", 0), ("x", 3600), ("x", 7200), ("x", 90000)]).playLog "x").length = 2) := by
  intro s songId now
  refine ⟨recordPlay_mem_favorites_iff s songId now, ?_, by decide, by decide⟩
  intro calls id t h1 h2
  exact newly_promoted_length_eq_four _ id t (belowThreshold_runPlays calls) h1 h2

/-- C1 witness: the fourth play of track a within one hour promotes it,
and the stored in-window count at that call is exactly 4. -/
theorem recordPlay_promotes_at_fourth_recent_play_witness :
    ((recordPlay (runPlays [("a", 0), ("a", 1), ("a", 2)]) "a" 3).playLog "a").length = 4 :=
  (recordPlay_promotes_at_fourth_recent_play initialState "a" 0).2.1
    [("a", 0), ("a", 1), ("a", 2)] "a" 3 (by decide) (by decide)

/-- C1 counterexample: after plays at t0 = 0, t0+1h, t0+2h and t0+25h the
stored sequence is [7200, 90000], of length 2 and not 3: the claim's
reason, that pruning leaves 3 events in the window, fails because the
event at t0+1h sits exactly on the cutoff and the strict boundary prunes
it too. No promotion happens, as the counts agree on. -/
theorem scenarioB_prunes_to_two_events :
    (runPlays [("x", 0), ("x", 3600), ("x", 7200), ("x", 90000)]).playLog "x" = [7200, 90000]
    ∧ ¬ ((runPlays [("x", 0), ("x", 3600), ("x", 7200), ("x", 90000)]).playLog "x").length = 3
    ∧ "x" ∉ (runPlays [("x", 0), ("x", 3600), ("x", 7200), ("x", 90000)]).favorites :=
  ⟨by decide, by decide, by decide⟩

/-- C2 (confirmed): after a record call every kept event for the track is
strictly newer than now minus 24 hours, an event lying exactly on the
cutoff is not kept, and the recent play count equals the number of
recorded events (the old sequence plus the fresh one) with timestamp
strictly after the cutoff: the boundary instant is excluded. -/
theorem recordPlay_window_boundary_exact :
    ∀ (s : MusicState) (songId : String) (now : Int),
      (∀ t ∈ (recordPlay s songId now).playLog songId, now - windowSeconds < t)
      ∧ (now - windowSeconds) ∉ (recordPlay s songId now).playLog songId
      ∧ getRecentPlayCount (recordPlay s songId now) songId
          = (s.playLog songId ++ [now]).countP (fun t => decide (now - windowSeconds < t)) := by
  intro s songId now
  have hmem : ∀ t ∈ (recordPlay s songId now).playLog songId, now - windowSeconds < t := by
    intro t ht
    rw [recordPlay_playLog_self] at ht
    simpa using (List.mem_filter.mp ht).2
  refine ⟨hmem, fun hc => absurd (hmem _ hc) (by omega), ?_⟩
  rw [List.countP_eq_length_filter]
  rw [show getRecentPlayCount (recordPlay s songId now) songId
      = ((recordPlay s songId now).playLog songId).length from rfl]
  rw [recordPlay_playLog_self]

/-- C2 witness: a concrete instance of the boundary behaviour, plays at 0
and 86400: the event at 0 lies exactly on the cutoff of the second call
and is pruned, leaving count 1. -/
theorem recordPlay_window_boundary_exact_witness :
    getRecentPlayCount (recordPlay (recordPlay initialState "x" 0) "x" 86400) "x" = 1 := by
  have h := (recordPlay_window_boundary_exact (recordPlay initialState "x" 0) "x" 86400).2.2
  rw [h]
  decide

/-- C3 (amended): favorite membership is sticky under play recording: a
favorite stays a favorite through every record call, even when pruning
later drops its recent count below 4, and track completion never changes
the favorites. removeFavorite never touches the play log or the total, is
a no-op when the identifier is absent, and on every reachable state
(whose favorites list has no duplicates, as proved here) it removes the
identifier. It is the only operation that removes an individual favorite;
resetAll, however, also removes favorites by clearing the whole set, so
the original claim's word "only" holds only beside reset. -/
theorem favorites_sticky_and_removal :
    ∀ (s : MusicState) (songId fid : String) (now d : Int) (ops : List Op),
      (fid ∈ s.favorites → fid ∈ (recordPlay s songId now).favorites)
      ∧ (onTrackComplete s d).favorites = s.favorites
      ∧ (removeFavorite s songId).playLog = s.playLog
      ∧ (removeFavorite s songId).totalSeconds = s.totalSeconds
      ∧ (songId ∉ s.favorites → removeFavorite s songId = s)
      ∧ (s.favorites.Nodup → songId ∉ (removeFavorite s songId).favorites)
      ∧ (run ops).favorites.Nodup := by
  intro s songId fid now d ops
  refine ⟨fun h => mem_favorites_recordPlay s songId fid now h, rfl, rfl, rfl,
    ?_, ?_, nodup_favorites_run ops⟩
  · intro h
    show { s with favorites := s.favorites.erase songId } = s
    rw [List.erase_of_not_mem h]
  · intro h
    exact h.not_mem_erase

/-- C3 witness: on the concrete reachable state where track a was
promoted by four plays inside one hour, its favorite membership survives
a later play (25 hours on, when its recent count has dropped to 1), an
absent identifier removal is a no-op, and removing a removes it. -/
theorem favorites_sticky_and_removal_witness :
    "a" ∈ (recordPlay (runPlays [("a", 0), ("a", 1), ("a", 2), ("a", 3)]) "a" 90000).favorites
    ∧ removeFavorite (runPlays [("a", 0)]) "b" = runPlays [("a", 0)]
    ∧ "a" ∉ (removeFavorite (runPlays [("a", 0), ("a", 1), ("a", 2), ("a", 3)]) "a").favorites :=
  ⟨(favorites_sticky_and_removal (runPlays [("a", 0), ("a", 1), ("a", 2), ("a", 3)])
      "a" "a" 90000 0 []).1 (by decide),
    (favorites_sticky_and_removal (runPlays [("a", 0)]) "b" "b" 0 0 []).2.2.2.2.1 (by decide),
    (favorites_sticky_and_removal (runPlays [("a", 0), ("a", 1), ("a", 2), ("a", 3)])
      "a" "a" 0 0 []).2.2.2.2.2.1 (by decide)⟩

/-- C3 counterexample: resetAll, an operation other than removeFavorite,
removes a favorite: on the reachable state where track a was promoted by
four plays, the favorites contain a before the reset and are empty after
it, so removeFavorite is not the only operation that removes a favorite. -/
theorem resetAll_also_removes_favorites :
    "a" ∈ (runPlays [("a", 0), ("a", 1), ("a", 2), ("a", 3)]).favorites
    ∧ (resetAll (runPlays [("a", 0), ("a", 1), ("a", 2), ("a", 3)])).favorites = [] :=
  ⟨by decide, rfl⟩

/-- C4 (amended): recording a play never changes the total listening
time: the source record method takes no duration at all. The total is
accumulated by the track-completion handler alone: after any sequence of
completion events from the initial state it equals the sum of the
effective durations (the reported duration when positive, else the
180-second fallback), and resetAll sets it to exactly 0. -/
theorem totalSeconds_accumulation :
    ∀ (s : MusicState) (songId : String) (now : Int) (ds : List Int),
      (recordPlay s songId now).totalSeconds = s.totalSeconds
      ∧ (runCompletes initialState ds).totalSeconds
          = (ds.map (fun d => if 0 < d then d else 180)).sum
      ∧ (resetAll s).totalSeconds = 0 := by
  intro s songId now ds
  refine ⟨rfl, ?_, rfl⟩
  rw [runCompletes_totalSeconds]
  show (0 : Int) + _ = _
  rw [Int.zero_add]

/-- C4 counterexample: after the four record calls of the spec's Scenario
A (durations of 200 notwithstanding, the record method accepts none) the
total listening time is 0, not the sum 800 the claim requires. -/
theorem recordPlay_leaves_totalSeconds_zero :
    (runPlays [("trackX", 0), ("trackX", 3600), ("trackX", 7200), ("trackX", 10800)]).totalSeconds = 0
    ∧ ¬ (runPlays [("trackX", 0), ("trackX", 3600), ("trackX", 7200), ("trackX", 10800)]).totalSeconds = 800 :=
  ⟨by decide, by decide⟩

/-- C5 (amended): a record call with an empty track identifier is not
rejected: the source performs no validation, so the event is appended and
pruned for the empty identifier exactly as for any other, and the state
is mutated; the record method takes no duration argument, so there is no
negative-duration rejection either. -/
theorem recordPlay_accepts_empty_trackId :
    ∀ (s : MusicState) (now : Int),
      (recordPlay s "" now).playLog ""
        = (s.playLog "" ++ [now]).filter (fun t => decide (now - windowSeconds < t))
      ∧ 0 < ((recordPlay s "" now).playLog "").length
      ∧ (recordPlay initialState "" 0).playLog "" = [0] := by
  intro s now
  exact ⟨recordPlay_playLog_self s "" now,
    recordPlay_playLog_length_pos s "" now, by decide⟩

/-- C5 counterexample: the record call with the empty identifier from the
initial state stores the event (the log of the empty identifier becomes
[0]) and so does mutate the state, where the claim requires a rejection
with no mutation. -/
theorem recordPlay_empty_trackId_mutates_state :
    (recordPlay initialState "" 0).playLog "" = [0]
    ∧ ¬ recordPlay initialState "" 0 = initialState := by
  refine ⟨by decide, fun h => ?_⟩
  exact absurd (congrArg (fun st => st.playLog "") h) (by decide)

/-- C6 (confirmed): the duration formatting matches the spec on all four
sample values and, on non-negative totals in general, omits leading zero
units: seconds only below one minute, minutes and seconds below one hour,
and the full breakdown from one hour up (hours by truncating division,
minutes and seconds by modulo). -/
theorem formatTotalTime_breakdown :
    ∀ (n : Int),
      formatTotalTime 0 = "0s"
      ∧ formatTotalTime 59 = "59s"
      ∧ formatTotalTime 60 = "1m 0s"
      ∧ formatTotalTime 3661 = "1h 1m 1s"
      ∧ (0 ≤ n → n < 60 → formatTotalTime n = toString n ++ "s")
      ∧ (60 ≤ n → n < 3600 →
          formatTotalTime n = toString (n / 60) ++ "m " ++ toString (n % 60) ++ "s")
      ∧ (3600 ≤ n →
          formatTotalTime n = toString (n / 3600) ++ "h "
            ++ toString (n % 3600 / 60) ++ "m " ++ toString (n % 60) ++ "s") := by
  intro n
  refine ⟨by decide, by decide, by decide, by decide, ?_, ?_, ?_⟩
  · intro h1 h2
    have e1 : Int.tdiv n 3600 = n / 3600 := Int.tdiv_eq_ediv h1 (by norm_num)
    have e2 : Int.tdiv (n % 3600) 60 = n % 3600 / 60 :=
      Int.tdiv_eq_ediv (Int.emod_nonneg n (by norm_num)) (by norm_num)
    rw [formatTotalTime, e1, e2, if_neg (by omega), if_neg (by omega),
      show n % 60 = n by omega]
  · intro h1 h2
    have h0 : 0 ≤ n := by omega
    have e1 : Int.tdiv n 3600 = n / 3600 := Int.tdiv_eq_ediv h0 (by norm_num)
    have e2 : Int.tdiv (n % 3600) 60 = n % 3600 / 60 :=
      Int.tdiv_eq_ediv (Int.emod_nonneg n (by norm_num)) (by norm_num)
    rw [formatTotalTime, e1, e2, if_neg (by omega), if_pos (by omega),
      show n % 3600 = n by omega]
  · intro h1
    have h0 : 0 ≤ n := by omega
    have e1 : Int.tdiv n 3600 = n / 3600 := Int.tdiv_eq_ediv h0 (by norm_num)
    have e2 : Int.tdiv (n % 3600) 60 = n % 3600 / 60 :=
      Int.tdiv_eq_ediv (Int.emod_nonneg n (by norm_num)) (by norm_num)
    rw [formatTotalTime, e1, e2, if_pos (by omega)]

/-- C6 witness: the three general branch statements applied at 45, 125
and 7322 seconds. -/
theorem formatTotalTime_breakdown_witness :
    formatTotalTime 45 = toString (45 : Int) ++ "s"
    ∧ formatTotalTime 125 = toString ((125 : Int) / 60) ++ "m " ++ toString ((125 : Int) % 60) ++ "s"
    ∧ formatTotalTime 7322 = toString ((7322 : Int) / 3600) ++ "h "
        ++ toString ((7322 : Int) % 3600 / 60) ++ "m " ++ toString ((7322 : Int) % 60) ++ "s" :=
  ⟨(formatTotalTime_breakdown 45).2.2.2.2.1 (by decide) (by decide),
    (formatTotalTime_breakdown 125).2.2.2.2.2.1 (by decide) (by decide),
    (formatTotalTime_breakdown 7322).2.2.2.2.2.2 (by decide)⟩

/-- C7 (confirmed): resetAll leaves no recorded event for any track,
empties the favorite set and zeroes the total listening time, on every
state. -/
theorem resetAll_clears_state :
    ∀ (s : MusicState) (songId : String),
      (resetAll s).playLog songId = []
      ∧ (resetAll s).favorites = []
      ∧ (resetAll s).totalSeconds = 0 :=
  fun _ _ => ⟨rfl, rfl, rfl⟩

/-- C8 (confirmed): recording a play for an identifier with no existing
history (the absent key reads as the empty list) succeeds, there being no
failure path in the operation, and creates the one-element history
holding just the fresh event. -/
theorem recordPlay_absent_track_creates_history :
    ∀ (s : MusicState) (songId : String) (now : Int),
      s.playLog songId = [] → (recordPlay s songId now).playLog songId = [now] := by
  intro s songId now h
  rw [recordPlay_playLog_self, h, List.nil_append, filter_now_singleton]

/-- C8 witness: recording trackY, unknown to the initial state, creates
the history [0] for it. -/
theorem recordPlay_absent_track_creates_history_witness :
    (recordPlay initialState "trackY" 0).playLog "trackY" = [0] :=
  recordPlay_absent_track_creates_history initialState "trackY" 0 rfl

/-- C9 (confirmed): the freshly appended event always survives the prune,
its timestamp being strictly inside the window, so after every record
call the stored sequence for the track is non-empty and ends in now. -/
theorem recordPlay_appends_surviving_event :
    ∀ (s : MusicState) (songId : String) (now : Int),
      ((recordPlay s songId now).playLog songId).getLast? = some now
      ∧ 0 < ((recordPlay s songId now).playLog songId).length :=
  fun s songId now => ⟨recordPlay_playLog_getLast s songId now,
    recordPlay_playLog_length_pos s songId now⟩

/-- C10 (confirmed): every track-completion event strictly increases the
total listening time, adding the duration when it is positive and the
180-second fallback otherwise; recording a play and removing a favorite
leave the total unchanged, so outside an explicit reset the total never
decreases. -/
theorem onTrackComplete_strictly_increases_total :
    ∀ (s : MusicState) (d : Int) (songId : String) (now : Int),
      (0 < d → (onTrackComplete s d).totalSeconds = s.totalSeconds + d)
      ∧ (d ≤ 0 → (onTrackComplete s d).totalSeconds = s.totalSeconds + 180)
      ∧ s.totalSeconds < (onTrackComplete s d).totalSeconds
      ∧ (recordPlay s songId now).totalSeconds = s.totalSeconds
      ∧ (removeFavorite s songId).totalSeconds = s.totalSeconds := by
  intro s d songId now
  refine ⟨?_, ?_, ?_, rfl, rfl⟩
  · intro h
    show s.totalSeconds + (if 0 < d then d else 180) = _
    rw [if_pos h]
  · intro h
    show s.totalSeconds + (if 0 < d then d else 180) = _
    rw [if_neg (by omega)]
  · show s.totalSeconds < s.totalSeconds + (if 0 < d then d else 180)
    by_cases h : 0 < d
    · rw [if_pos h]
      omega
    · rw [if_neg h]
      omega

/-- C10 witness: a completion with duration 200 adds 200 to a zero total,
one with duration 0 adds the 180 fallback. -/
theorem onTrackComplete_strictly_increases_total_witness :
    (onTrackComplete initialState 200).totalSeconds = 0 + 200
    ∧ (onTrackComplete initialState 0).totalSeconds = 0 + 180 :=
  ⟨(onTrackComplete_strictly_increases_total initialState 200 "x" 0).1 (by decide),
    (onTrackComplete_strictly_increases_total initialState 0 "x" 0).2.1 (by decide)⟩
